import Mathlib

/-!
Verification development for the Stalwart mail server core
(crates/common/src/lib.rs, crates/jmap/src/auth/oauth/token.rs,
crates/imap/src/op/append.rs).

Byte strings are modelled as `List Nat` (each element a byte value).
Unicode strings that the code treats character-wise are modelled as
`List Nat` of code points.  Fixed-size machine integers are `Nat`
with an explicit reduction modulo two to the width where overflow can
occur.
-/

/-- Modelled from the spec: UTF-8 encoding of one Unicode code point, as
performed by Rust when a String is viewed as bytes (the String type itself
lives outside the analysed sources).  Standard 1-4 byte encoding. -/
def utf8EncodeChar (c : Nat) : List Nat :=
  if c < 128 then [c]
  else if c < 2048 then [192 + c / 64, 128 + c % 64]
  else if c < 65536 then [224 + c / 4096, 128 + c / 64 % 64, 128 + c % 64]
  else [240 + c / 262144 % 8, 128 + c / 4096 % 64, 128 + c / 64 % 64, 128 + c % 64]

/-- UTF-8 encoding of a code-point string. -/
def utf8Encode (s : List Nat) : List Nat := (s.map utf8EncodeChar).flatten

theorem utf8Encode_nil : utf8Encode [] = [] := rfl

theorem utf8Encode_cons (a : Nat) (t : List Nat) :
    utf8Encode (a :: t) = utf8EncodeChar a ++ utf8Encode t := by
  simp [utf8Encode]

theorem utf8EncodeChar_ascii {c : Nat} (h : c < 128) : utf8EncodeChar c = [c] := by
  simp [utf8EncodeChar, h]

/-- On ASCII strings the UTF-8 encoding is the identity. -/
theorem utf8Encode_ascii {s : List Nat} (h : ∀ c ∈ s, c < 128) : utf8Encode s = s := by
  induction s with
  | nil => rfl
  | cons a t ih =>
    rw [utf8Encode_cons, utf8EncodeChar_ascii (h a (List.mem_cons_self a t)),
      ih (fun c hc => h c (List.mem_cons_of_mem a hc))]
    rfl

theorem utf8EncodeChar_lt {c : Nat} : ∀ b ∈ utf8EncodeChar c, b < 256 := by
  intro b hb
  by_cases h1 : c < 128
  · rw [utf8EncodeChar_ascii h1] at hb
    simp only [List.mem_singleton] at hb
    omega
  · by_cases h2 : c < 2048
    · have hd : c / 64 < 32 := by omega
      have hm : c % 64 < 64 := Nat.mod_lt _ (by omega)
      simp only [utf8EncodeChar, if_neg h1, if_pos h2, List.mem_cons,
        List.mem_singleton, List.not_mem_nil, or_false] at hb
      omega
    · by_cases h3 : c < 65536
      · have hd : c / 4096 < 16 := by omega
        have hm1 : c / 64 % 64 < 64 := Nat.mod_lt _ (by omega)
        have hm2 : c % 64 < 64 := Nat.mod_lt _ (by omega)
        simp only [utf8EncodeChar, if_neg h1, if_neg h2, if_pos h3, List.mem_cons,
          List.not_mem_nil, or_false] at hb
        omega
      · have hd : c / 262144 % 8 < 8 := Nat.mod_lt _ (by omega)
        have hm1 : c / 4096 % 64 < 64 := Nat.mod_lt _ (by omega)
        have hm2 : c / 64 % 64 < 64 := Nat.mod_lt _ (by omega)
        have hm3 : c % 64 < 64 := Nat.mod_lt _ (by omega)
        simp only [utf8EncodeChar, if_neg h1, if_neg h2, if_neg h3, List.mem_cons,
          List.not_mem_nil, or_false] at hb
        omega

theorem utf8Encode_lt {s : List Nat} : ∀ b ∈ utf8Encode s, b < 256 := by
  induction s with
  | nil => intro b hb; simp [utf8Encode] at hb
  | cons a t ih =>
    intro b hb
    rw [utf8Encode_cons] at hb
    rcases List.mem_append.1 hb with h | h
    · exact utf8EncodeChar_lt b h
    · exact ih b h

/-- Modelled from the spec: little-endian base-128 (LEB128) encoding, as used by
push_leb128 in the utils codec crate (declared outside the analysed sources).
The first argument is structural fuel; fuel equal to the encoded number always
suffices. -/
def lebEncodeAux : Nat → Nat → List Nat
  | 0, n => [n % 128]
  | fuel + 1, n => if n < 128 then [n] else (n % 128 + 128) :: lebEncodeAux fuel (n / 128)

def lebEncode (n : Nat) : List Nat := lebEncodeAux n n

/-- Modelled from the spec: LEB128 decoding of a byte-iterator head, as used by
next_leb128 in the utils codec crate.  Returns the value and the unread rest. -/
def lebDecode : List Nat → Option (Nat × List Nat)
  | [] => none
  | b :: rest =>
    if b < 128 then some (b, rest)
    else
      match lebDecode rest with
      | some (v, r) => some (b - 128 + 128 * v, r)
      | none => none

theorem lebDecodeAux_encode : ∀ (fuel n : Nat) (rest : List Nat), n ≤ fuel →
    lebDecode (lebEncodeAux fuel n ++ rest) = some (n, rest) := by
  intro fuel
  induction fuel with
  | zero =>
    intro n rest hn
    have h0 : n = 0 := Nat.le_zero.1 hn
    subst h0
    simp [lebEncodeAux, lebDecode]
  | succ fuel ih =>
    intro n rest hn
    by_cases h : n < 128
    · simp [lebEncodeAux, h, lebDecode]
    · have hdivlt : n / 128 < n := Nat.div_lt_self (by omega) (by omega)
      have hfuel : n / 128 ≤ fuel := by omega
      have hge : ¬ (n % 128 + 128 < 128) := by omega
      have hmod : n % 128 + 128 - 128 + 128 * (n / 128) = n := by
        have := Nat.mod_add_div n 128
        omega
      simp only [lebEncodeAux, if_neg h, List.cons_append, lebDecode, if_neg hge,
        ih (n / 128) rest hfuel, hmod]

theorem lebDecode_encode (n : Nat) (rest : List Nat) :
    lebDecode (lebEncode n ++ rest) = some (n, rest) :=
  lebDecodeAux_encode n n rest (Nat.le_refl n)

/-- Modelled from the spec: the decimal rendering of an integer as ASCII bytes,
as produced by Rust display formatting inside the context format strings.
Fuel-based structural recursion; fuel equal to the number always suffices. -/
def decimalAux : Nat → Nat → List Nat
  | 0, _ => []
  | fuel + 1, n => if n = 0 then [] else decimalAux fuel (n / 10) ++ [n % 10 + 48]

def decimalBytes (n : Nat) : List Nat := if n = 0 then [48] else decimalAux n n

theorem decimalAux_lt : ∀ (fuel n : Nat), ∀ b ∈ decimalAux fuel n, b < 256 := by
  intro fuel
  induction fuel with
  | zero => intro n b hb; simp [decimalAux] at hb
  | succ fuel ih =>
    intro n b hb
    by_cases h : n = 0
    · simp [decimalAux, h] at hb
    · simp only [decimalAux, if_neg h, List.mem_append, List.mem_singleton] at hb
      rcases hb with hb | hb
      · exact ih (n / 10) b hb
      · have := Nat.mod_lt n (show 0 < 10 by omega)
        omega

theorem decimalBytes_lt (n : Nat) : ∀ b ∈ decimalBytes n, b < 256 := by
  intro b hb
  by_cases h : n = 0
  · simp only [decimalBytes, if_pos h, List.mem_singleton] at hb
    omega
  · simp only [decimalBytes, if_neg h] at hb
    exact decimalAux_lt n n b hb

/-- Big-endian byte rendering of a machine integer over a given width,
modelling u64 to_be_bytes when the width is 8. -/
def beBytes : Nat → Nat → List Nat
  | 0, _ => []
  | w + 1, n => beBytes w (n / 256) ++ [n % 256]

theorem beBytes_lt : ∀ (w n : Nat), ∀ b ∈ beBytes w n, b < 256 := by
  intro w
  induction w with
  | zero => intro n b hb; simp [beBytes] at hb
  | succ w ih =>
    intro n b hb
    simp only [beBytes, List.mem_append, List.mem_singleton] at hb
    rcases hb with hb | hb
    · exact ih (n / 256) b hb
    · have := Nat.mod_lt n (show 0 < 256 by omega)
      omega

/-- Injective numeric code of a byte string (digits shifted by one in base 257);
used by the idealised collision-free hash and AEAD tag models below. -/
def codeList (l : List Nat) : Nat := l.foldr (fun b acc => b + 1 + 257 * acc) 0

theorem codeList_nil : codeList [] = 0 := rfl

theorem codeList_cons (b : Nat) (t : List Nat) :
    codeList (b :: t) = b + 1 + 257 * codeList t := rfl

theorem codeList_inj : ∀ (l1 l2 : List Nat), (∀ b ∈ l1, b < 256) →
    (∀ b ∈ l2, b < 256) → codeList l1 = codeList l2 → l1 = l2 := by
  intro l1
  induction l1 with
  | nil =>
    intro l2 _ h2 hc
    cases l2 with
    | nil => rfl
    | cons b t =>
      rw [codeList_nil, codeList_cons] at hc
      omega
  | cons a s ih =>
    intro l2 h1 h2 hc
    cases l2 with
    | nil =>
      rw [codeList_cons, codeList_nil] at hc
      omega
    | cons b t =>
      rw [codeList_cons, codeList_cons] at hc
      have ha : a < 256 := h1 a (List.mem_cons_self a s)
      have hb : b < 256 := h2 b (List.mem_cons_self b t)
      have hab : a = b ∧ codeList s = codeList t := by omega
      have ht : s = t :=
        ih t (fun x hx => h1 x (List.mem_cons_of_mem a hx))
          (fun x hx => h2 x (List.mem_cons_of_mem b hx)) hab.2
      rw [hab.1, ht]

/-! Constants from crates/jmap/src/auth/oauth (RANDOM_CODE_LEN) and the
SymmetricEncrypt cipher (NONCE_LEN, ENCRYPT_TAG_LEN).  The numeric values of
NONCE_LEN and CLIENT_ID_MAX_LEN live outside the analysed sources; they are
modelled from the spec (a 16-byte tag and seed are stated explicitly, the
other two values are arbitrary positive constants no claim depends on). -/

def RANDOM_CODE_LEN : Nat := 16

def ENCRYPT_TAG_LEN : Nat := 16

def NONCE_LEN : Nat := 12

def CLIENT_ID_MAX_LEN : Nat := 20

/-- Two to the sixty-fourth power: the modulus of Rust u64 arithmetic. -/
def U64 : Nat := 2 ^ 64

/-- Modelled from the spec: the blake3 hash used for nonce derivation
(section 4.2), idealised as a collision-free digest.  The first output entry
is an injective code of the input, the remainder is zero padding; only
determinism and collision-freedom on byte inputs are used. -/
def blake3Hash (input : List Nat) : List Nat :=
  codeList input :: List.replicate 31 0

/-- Modelled from the spec: the 16-entry authentication tag of the AEAD
construction of section 4.2, idealised as an ideal MAC: a deterministic,
collision-free function of the key, the derivation context and the nonce. -/
def aeadTag (key context nonce : List Nat) : List Nat :=
  codeList key :: codeList context :: codeList nonce :: List.replicate (ENCRYPT_TAG_LEN - 3) 0

theorem aeadTag_length (key context nonce : List Nat) :
    (aeadTag key context nonce).length = ENCRYPT_TAG_LEN := by
  simp [aeadTag, ENCRYPT_TAG_LEN]

/-- Modelled from the spec: SymmetricEncrypt encrypt (section 4.2) returns
ciphertext followed by the 16-byte tag; in the idealisation the ciphertext
equals the plaintext and all authentication strength lives in the tag. -/
def aeadEncrypt (key context plaintext nonce : List Nat) : List Nat :=
  plaintext ++ aeadTag key context nonce

/-- Modelled from the spec: SymmetricEncrypt decrypt (section 4.2) splits off
the trailing 16-byte tag, recomputes it under the given key, context and
nonce, and fails unless it matches. -/
def aeadDecrypt (key context ct nonce : List Nat) : Option (List Nat) :=
  if ct.drop (ct.length - ENCRYPT_TAG_LEN) = aeadTag key context nonce then
    some (ct.take (ct.length - ENCRYPT_TAG_LEN))
  else none

/-- Modelled from the spec: base64 transport encoding (implemented by the
external mail-builder and mail-parser crates).  Idealised as the identity
bijection on byte strings, which captures the contract the spec states:
decoding inverts encoding and accepts unpadded input. -/
def base64EncodeM (bs : List Nat) : List Nat := bs

/-- Modelled from the spec: base64 decoding, inverse of base64EncodeM. -/
def base64DecodeM (bs : List Nat) : Option (List Nat) := some bs

/-- Seconds since 2000-01-01 as computed in encode_access_token and
validate_access_token: unix seconds with a saturating subtraction of the
epoch offset 946684800. -/
def nowSince2000 (now : Nat) : Nat := now - 946684800

/-- The expiry value embedded by encode_access_token: saturating subtraction
of the epoch offset, then a plain u64 addition of expiry_in (which wraps
modulo two to the sixty-fourth). -/
def tokenExpiry (now expiryIn : Nat) : Nat := (nowSince2000 now + expiryIn) % U64

/-- The derivation context string of encode_access_token and
validate_access_token, as UTF-8 bytes: grant_type, client_id, account_id and
password hash joined by single spaces. -/
def tokenContext (grant clientBytes : List Nat) (account : Nat) (pw : List Nat) : List Nat :=
  grant ++ [32] ++ clientBytes ++ [32] ++ decimalBytes account ++ [32] ++ pw

/-- The nonce-derivation context string: grant_type, the word nonce, and the
password hash joined by single spaces, as UTF-8 bytes. -/
def tokenContextNonce (grant pw : List Nat) : List Nat :=
  grant ++ [32] ++ [110, 111, 110, 99, 101] ++ [32] ++ pw

/-- The derived nonce: the first NONCE_LEN bytes of the blake3 hash of the
nonce context followed by the expiry as eight big-endian bytes. -/
def deriveNonce (contextNonce : List Nat) (expiry : Nat) : List Nat :=
  (blake3Hash (contextNonce ++ beBytes 8 expiry)).take NONCE_LEN

/-- Embedding of encode_access_token (token.rs lines 256-304).  Strings enter
as in the source: grant_type, password hash and the oauth key as their UTF-8
bytes, client_id as its code points (its byte length is checked against
CLIENT_ID_MAX_LEN and its UTF-8 bytes are appended to the token).  rnd models
the 16 random seed bytes, now the current unix time in seconds.  Returns none
exactly where the source returns an error. -/
def encodeAccessToken (oauthKey grant : List Nat) (account : Nat) (pw : List Nat)
    (clientId : List Nat) (expiryIn now : Nat) (rnd : List Nat) : Option (List Nat) :=
  let clientBytes := utf8Encode clientId
  if CLIENT_ID_MAX_LEN < clientBytes.length then none
  else
    let context := tokenContext grant clientBytes account pw
    let contextNonce := tokenContextNonce grant pw
    let expiry := tokenExpiry now expiryIn
    let nonce := deriveNonce contextNonce expiry
    some (base64EncodeM
      (aeadEncrypt oauthKey context rnd nonce ++ lebEncode account ++ lebEncode expiry
        ++ clientBytes))

/-- The metadata parse of validate_access_token: everything past the 32-byte
ciphertext region must decode as two LEB128 integers followed by the raw
client_id bytes. -/
def parseTokenMeta (token : List Nat) : Option (Nat × Nat × List Nat) :=
  if RANDOM_CODE_LEN + ENCRYPT_TAG_LEN ≤ token.length then
    match lebDecode (token.drop (RANDOM_CODE_LEN + ENCRYPT_TAG_LEN)) with
    | some (account, r1) =>
      match lebDecode r1 with
      | some (expiry, r2) => some (account, expiry, r2)
      | none => none
    | none => none
  else none

/-- The possible failures of validate_access_token, by their reason or detail
string in the source. -/
inductive ValidateErr
  | failedDecode
  | tokenExpired
  | passwordHashErr
  deriving DecidableEq

/-- Result type of validate_access_token (a decidable stand-in for the trc
result type). -/
inductive VResult
  | ok (account : Nat) (clientId : List Nat) (timeLeft : Nat)
  | err (e : ValidateErr)
  deriving DecidableEq

/-- Embedding of validate_access_token (token.rs lines 306-392).  pwLookup
models the password_hash directory lookup (none exactly where the source
fails to obtain a hash).  The client_id string is rebuilt from the trailing
token bytes one character per byte (char::from on each u8), so its code
points are the raw bytes; when that string re-enters the derivation context
it is UTF-8 encoded again. -/
def validateAccessToken (oauthKey grant : List Nat) (pwLookup : Nat → Option (List Nat))
    (now : Nat) (tokenB64 : List Nat) : VResult :=
  match base64DecodeM tokenB64 with
  | none => .err .failedDecode
  | some token =>
    match parseTokenMeta token with
    | none => .err .failedDecode
    | some (account, expiry, clientBytes) =>
      if expiry ≤ nowSince2000 now then .err .tokenExpired
      else
        match pwLookup account with
        | none => .err .passwordHashErr
        | some pw =>
          let context := tokenContext grant (utf8Encode clientBytes) account pw
          let contextNonce := tokenContextNonce grant pw
          let nonce := deriveNonce contextNonce expiry
          match aeadDecrypt oauthKey context
              (token.take (RANDOM_CODE_LEN + ENCRYPT_TAG_LEN)) nonce with
          | none => .err .failedDecode
          | some _ => .ok account clientBytes (expiry - nowSince2000 now)

theorem aeadEncrypt_length {rnd : List Nat} (key context nonce : List Nat)
    (hrnd : rnd.length = RANDOM_CODE_LEN) :
    (aeadEncrypt key context rnd nonce).length = RANDOM_CODE_LEN + ENCRYPT_TAG_LEN := by
  simp [aeadEncrypt, aeadTag_length, hrnd]

theorem aeadDecrypt_encrypt {rnd : List Nat} (key context nonce : List Nat)
    (hrnd : rnd.length = RANDOM_CODE_LEN) :
    aeadDecrypt key context (aeadEncrypt key context rnd nonce) nonce = some rnd := by
  have hlen : (aeadEncrypt key context rnd nonce).length - ENCRYPT_TAG_LEN = rnd.length := by
    rw [aeadEncrypt_length key context nonce hrnd, hrnd]
    decide
  unfold aeadDecrypt
  rw [hlen]
  unfold aeadEncrypt
  rw [List.drop_left, List.take_left, if_pos rfl]

theorem aeadDecrypt_tag_ne {rnd : List Nat} (key1 context1 nonce1 key2 context2 nonce2 : List Nat)
    (hrnd : rnd.length = RANDOM_CODE_LEN)
    (hne : aeadTag key1 context1 nonce1 ≠ aeadTag key2 context2 nonce2) :
    aeadDecrypt key2 context2 (aeadEncrypt key1 context1 rnd nonce1) nonce2 = none := by
  have hlen : (aeadEncrypt key1 context1 rnd nonce1).length - ENCRYPT_TAG_LEN = rnd.length := by
    rw [aeadEncrypt_length key1 context1 nonce1 hrnd, hrnd]
    decide
  unfold aeadDecrypt
  rw [hlen]
  unfold aeadEncrypt
  rw [List.drop_left, if_neg hne]

theorem parseTokenMeta_encode {rnd : List Nat} (key context nonce cb : List Nat)
    (account expiry : Nat) (hrnd : rnd.length = RANDOM_CODE_LEN) :
    parseTokenMeta (aeadEncrypt key context rnd nonce ++ lebEncode account
      ++ lebEncode expiry ++ cb) = some (account, expiry, cb) := by
  have hct := aeadEncrypt_length key context nonce hrnd
  unfold parseTokenMeta
  rw [List.append_assoc, List.append_assoc, ← hct]
  have hle : (aeadEncrypt key context rnd nonce).length
      ≤ (aeadEncrypt key context rnd nonce
        ++ (lebEncode account ++ (lebEncode expiry ++ cb))).length := by
    rw [List.length_append]
    omega
  rw [if_pos hle, List.drop_left, lebDecode_encode]
  simp [lebDecode_encode]

theorem take_token_front {rnd : List Nat} (key context nonce cb : List Nat)
    (account expiry : Nat) (hrnd : rnd.length = RANDOM_CODE_LEN) :
    (aeadEncrypt key context rnd nonce ++ lebEncode account
      ++ lebEncode expiry ++ cb).take (RANDOM_CODE_LEN + ENCRYPT_TAG_LEN)
    = aeadEncrypt key context rnd nonce := by
  have hct := aeadEncrypt_length key context nonce hrnd
  rw [List.append_assoc, List.append_assoc, ← hct, List.take_left]

theorem tokenContextNonce_inj_pw {grant pw1 pw2 : List Nat}
    (h : tokenContextNonce grant pw1 = tokenContextNonce grant pw2) : pw1 = pw2 :=
  List.append_cancel_left h

theorem tokenContextNonce_lt {grant pw : List Nat} (hg : ∀ b ∈ grant, b < 256)
    (hp : ∀ b ∈ pw, b < 256) : ∀ b ∈ tokenContextNonce grant pw, b < 256 := by
  intro b hb
  unfold tokenContextNonce at hb
  simp only [List.mem_append, List.mem_cons, List.mem_singleton, List.not_mem_nil,
    or_false] at hb
  rcases hb with ((((hb | hb) | hb) | hb) | hb)
  · exact hg b hb
  · omega
  · omega
  · omega
  · exact hp b hb

theorem deriveNonce_eq_cons (cn : List Nat) (e : Nat) :
    deriveNonce cn e = codeList (cn ++ beBytes 8 e) :: List.replicate 11 0 := by
  unfold deriveNonce blake3Hash NONCE_LEN
  rw [List.take_succ_cons]
  norm_num [List.take_replicate]

theorem aeadTag_ne_of_contextNonce_ne (key ctx1 ctx2 : List Nat) {cn1 cn2 : List Nat}
    (e : Nat) (h1 : ∀ b ∈ cn1, b < 256) (h2 : ∀ b ∈ cn2, b < 256) (hne : cn1 ≠ cn2) :
    aeadTag key ctx1 (deriveNonce cn1 e) ≠ aeadTag key ctx2 (deriveNonce cn2 e) := by
  intro h
  unfold aeadTag at h
  injection h with ha h
  injection h with hb h
  injection h with hc h
  rw [deriveNonce_eq_cons, deriveNonce_eq_cons, codeList_cons, codeList_cons] at hc
  have hcode : codeList (cn1 ++ beBytes 8 e) = codeList (cn2 ++ beBytes 8 e) := by omega
  have hin : cn1 ++ beBytes 8 e = cn2 ++ beBytes 8 e := by
    refine codeList_inj _ _ ?_ ?_ hcode
    · intro b hb
      rcases List.mem_append.1 hb with hb | hb
      · exact h1 b hb
      · exact beBytes_lt 8 e b hb
    · intro b hb
      rcases List.mem_append.1 hb with hb | hb
      · exact h2 b hb
      · exact beBytes_lt 8 e b hb
  exact hne (List.append_cancel_right hin)

/-- C1 (amended): for every ASCII client_id of byte length at most
CLIENT_ID_MAX_LEN, every expiry_in with 0 < expiry_in whose addition to the
current epoch-2000 time does not overflow u64, validating (same grant type,
same stored password hash, same oauth key, same clock reading) a token
produced by encode_access_token succeeds and returns the same account_id, the
same client_id and a remaining lifetime of exactly expiry_in. -/
theorem c1_token_roundtrip (key grant pw clientId rnd : List Nat)
    (pwLookup : Nat → Option (List Nat)) (account expiryIn now : Nat)
    (hascii : ∀ c ∈ clientId, c < 128)
    (hlen : clientId.length ≤ CLIENT_ID_MAX_LEN)
    (hrnd : rnd.length = RANDOM_CODE_LEN)
    (hpos : 0 < expiryIn)
    (hnoflow : nowSince2000 now + expiryIn < U64)
    (hpw : pwLookup account = some pw) :
    (encodeAccessToken key grant account pw clientId expiryIn now rnd).map
      (validateAccessToken key grant pwLookup now)
    = some (VResult.ok account clientId expiryIn) := by
  have hcb : utf8Encode clientId = clientId := utf8Encode_ascii hascii
  have hexp : tokenExpiry now expiryIn = nowSince2000 now + expiryIn :=
    Nat.mod_eq_of_lt hnoflow
  simp only [encodeAccessToken, hcb]
  rw [if_neg (by omega : ¬ CLIENT_ID_MAX_LEN < clientId.length)]
  simp only [Option.map_some']
  unfold validateAccessToken
  simp only [base64EncodeM, base64DecodeM]
  rw [parseTokenMeta_encode key
    (tokenContext grant clientId account pw)
    (deriveNonce (tokenContextNonce grant pw) (tokenExpiry now expiryIn))
    clientId account (tokenExpiry now expiryIn) hrnd]
  simp only [hexp, hpw, hcb]
  rw [if_neg (by omega : ¬ nowSince2000 now + expiryIn ≤ nowSince2000 now)]
  rw [take_token_front key
    (tokenContext grant clientId account pw)
    (deriveNonce (tokenContextNonce grant pw) (nowSince2000 now + expiryIn))
    clientId account (nowSince2000 now + expiryIn) hrnd]
  rw [aeadDecrypt_encrypt key (tokenContext grant clientId account pw)
    (deriveNonce (tokenContextNonce grant pw) (nowSince2000 now + expiryIn)) hrnd]
  have : nowSince2000 now + expiryIn - nowSince2000 now = expiryIn := by omega
  rw [this]

/-- C1 counterexample: for the non-ASCII client_id with the single code point
233, whose UTF-8 form is two bytes, the claimed round trip fails: the decoder
rebuilds the client_id one character per byte, the derivation context no
longer matches, and validation errors instead of returning the client_id. -/
theorem c1_counterexample :
    (encodeAccessToken [107] [97] 1 [112] [233] 5 946684800 (List.replicate 16 7)).map
      (validateAccessToken [107] [97] (fun a => if a = 1 then some [112] else none) 946684800)
    = some (VResult.err .failedDecode)
    ∧ some (VResult.err .failedDecode) ≠ some (VResult.ok 1 [233] 5) := by
  constructor
  · decide
  · decide

/-- C1 witness: a concrete ASCII instance of the round trip. -/
theorem c1_token_roundtrip_witness :
    (encodeAccessToken [107] [97] 1 [112] [99] 5 946684800 (List.replicate 16 7)).map
      (validateAccessToken [107] [97] (fun a => if a = 1 then some [112] else none) 946684800)
    = some (VResult.ok 1 [99] 5) :=
  c1_token_roundtrip [107] [97] [112] [99] (List.replicate 16 7)
    (fun a => if a = 1 then some [112] else none) 1 5 946684800
    (by decide) (by decide) (by decide) (by decide) (by decide) (by decide)

/-- C2 (amended): any token issued under stored password hash pw1 fails
validation with the decode error once the stored hash is any different pw2,
provided the token has not already expired at validation time (an expired
token is rejected earlier with the expiry error). -/
theorem c2_rotation_revokes (key grant pw1 pw2 clientId rnd : List Nat)
    (pwLookup : Nat → Option (List Nat)) (account expiryIn now1 now2 : Nat)
    (hg : ∀ b ∈ grant, b < 256)
    (hp1 : ∀ b ∈ pw1, b < 256) (hp2 : ∀ b ∈ pw2, b < 256)
    (hne : pw1 ≠ pw2)
    (hlenB : (utf8Encode clientId).length ≤ CLIENT_ID_MAX_LEN)
    (hrnd : rnd.length = RANDOM_CODE_LEN)
    (hpw : pwLookup account = some pw2)
    (hlive : nowSince2000 now2 < tokenExpiry now1 expiryIn) :
    (encodeAccessToken key grant account pw1 clientId expiryIn now1 rnd).map
      (validateAccessToken key grant pwLookup now2)
    = some (VResult.err .failedDecode) := by
  have hcnne : tokenContextNonce grant pw1 ≠ tokenContextNonce grant pw2 :=
    fun h => hne (tokenContextNonce_inj_pw h)
  have htag : aeadTag key (tokenContext grant (utf8Encode clientId) account pw1)
        (deriveNonce (tokenContextNonce grant pw1) (tokenExpiry now1 expiryIn))
      ≠ aeadTag key
        (tokenContext grant (utf8Encode (utf8Encode clientId)) account pw2)
        (deriveNonce (tokenContextNonce grant pw2) (tokenExpiry now1 expiryIn)) :=
    aeadTag_ne_of_contextNonce_ne _ _ _ _
      (tokenContextNonce_lt hg hp1) (tokenContextNonce_lt hg hp2) hcnne
  simp only [encodeAccessToken]
  rw [if_neg (by omega : ¬ CLIENT_ID_MAX_LEN < (utf8Encode clientId).length)]
  simp only [Option.map_some']
  unfold validateAccessToken
  simp only [base64EncodeM, base64DecodeM]
  rw [parseTokenMeta_encode key
    (tokenContext grant (utf8Encode clientId) account pw1)
    (deriveNonce (tokenContextNonce grant pw1) (tokenExpiry now1 expiryIn))
    (utf8Encode clientId) account (tokenExpiry now1 expiryIn) hrnd]
  dsimp only
  rw [if_neg (by omega : ¬ tokenExpiry now1 expiryIn ≤ nowSince2000 now2)]
  simp only [hpw]
  rw [take_token_front key
    (tokenContext grant (utf8Encode clientId) account pw1)
    (deriveNonce (tokenContextNonce grant pw1) (tokenExpiry now1 expiryIn))
    (utf8Encode clientId) account (tokenExpiry now1 expiryIn) hrnd]
  rw [aeadDecrypt_tag_ne key
    (tokenContext grant (utf8Encode clientId) account pw1)
    (deriveNonce (tokenContextNonce grant pw1) (tokenExpiry now1 expiryIn))
    key (tokenContext grant (utf8Encode (utf8Encode clientId)) account pw2)
    (deriveNonce (tokenContextNonce grant pw2) (tokenExpiry now1 expiryIn))
    hrnd htag]

/-- C2 counterexample: a token that is both expired and issued under a rotated
hash fails with the expiry error, not the decode error the claim names. -/
theorem c2_counterexample :
    (encodeAccessToken [107] [97] 1 [112] [99] 5 946684800 (List.replicate 16 7)).map
      (validateAccessToken [107] [97] (fun a => if a = 1 then some [113] else none) 946684900)
    = some (VResult.err .tokenExpired)
    ∧ some (VResult.err .tokenExpired) ≠ some (VResult.err (.failedDecode)) := by
  constructor
  · decide
  · decide

/-- C2 witness: a live token issued under hash 112 and validated under hash
113 fails with the decode error. -/
theorem c2_rotation_revokes_witness :
    (encodeAccessToken [107] [97] 1 [112] [99] 5 946684800 (List.replicate 16 7)).map
      (validateAccessToken [107] [97] (fun a => if a = 1 then some [113] else none) 946684800)
    = some (VResult.err .failedDecode) :=
  c2_rotation_revokes [107] [97] [112] [113] [99] (List.replicate 16 7)
    (fun a => if a = 1 then some [113] else none) 1 5 946684800 946684800
    (by decide) (by decide) (by decide) (by decide) (by decide) (by decide)
    (by decide) (by decide)

/-- C7 counterexample: the addition of expiry_in is a plain u64 addition, so
the computation wraps rather than saturating: one second after the 2000 epoch
with the maximal expiry_in yields an embedded expiry of zero, not the
saturated maximum. -/
theorem c7_counterexample :
    tokenExpiry 946684801 (U64 - 1) = 0
    ∧ min (nowSince2000 946684801 + (U64 - 1)) (U64 - 1) = U64 - 1
    ∧ (0 : Nat) ≠ U64 - 1 := by
  refine ⟨?_, ?_, ?_⟩ <;> decide

/-- C7 (amended): the embedded expiry is the saturating subtraction of the
epoch offset 946684800 from the current unix seconds, plus expiry_in reduced
modulo two to the sixty-fourth; it equals the exact sum whenever that sum
fits in u64, and before the 2000 epoch the subtraction saturates at zero. -/
theorem c7_expiry_arith (now expiryIn : Nat) :
    (nowSince2000 now + expiryIn < U64
      → tokenExpiry now expiryIn = nowSince2000 now + expiryIn)
    ∧ (now ≤ 946684800 → tokenExpiry now expiryIn = expiryIn % U64) := by
  constructor
  · intro h
    exact Nat.mod_eq_of_lt h
  · intro h
    unfold tokenExpiry nowSince2000
    rw [Nat.sub_eq_zero_of_le h, Nat.zero_add]

/-- C7 witness: a concrete in-range instance of the expiry arithmetic. -/
theorem c7_expiry_arith_witness :
    tokenExpiry 946684805 7 = nowSince2000 946684805 + 7 :=
  (c7_expiry_arith 946684805 7).1 (by decide)

/-! Embedding of the token endpoint, handle_token_request
(token.rs lines 33-179). -/

/-- The status of a stored OAuth code record. -/
inductive OAuthStatus
  | pending
  | authorized
  | tokenIssued
  deriving DecidableEq

/-- The OAuthCode record stored under key oauth:code in the lookup store. -/
structure OAuthCode where
  clientId : String
  params : String
  accountId : Nat
  status : OAuthStatus
  deriving DecidableEq

/-- The OAuth error kinds of the endpoint. -/
inductive ErrorType
  | invalidGrant
  | invalidClient
  | invalidRequest
  | accessDenied
  | expiredToken
  | authorizationPending
  deriving DecidableEq

/-- The endpoint response.  A granted response is abbreviated to the issuance
parameters passed to issue_token (account id, client id, and whether a
refresh token accompanies the access token); the token bytes themselves are
covered by the encode_access_token embedding above.  Failures of issue_token
propagate out of the endpoint as transport errors and are not modelled. -/
inductive TokenResponse
  | granted (accountId : Nat) (clientId : String) (withRefresh : Bool)
  | error (e : ErrorType)
  deriving DecidableEq

/-- ASCII lowercasing of one character, as used by eq_ignore_ascii_case. -/
def lowerChar (c : Char) : Char :=
  if 'A' ≤ c ∧ c ≤ 'Z' then Char.ofNat (c.toNat + 32) else c

/-- Embedding of str eq_ignore_ascii_case. -/
def eqIgnoreAsciiCase (a b : String) : Bool :=
  a.data.map lowerChar == b.data.map lowerChar

/-- Deletion of one key from the lookup store (key_delete). -/
def deleteKey (store : String → Option OAuthCode) (key : String) :
    String → Option OAuthCode :=
  fun k => if k = key then none else store k

/-- Result of the endpoint: the response and the lookup store afterwards. -/
structure TokenReqOut where
  resp : TokenResponse
  store : String → Option OAuthCode

/-- Embedding of handle_token_request.  The lookup store is a map from full
keys to records; form is the parsed POST form; validateRefresh models
validate_access_token on the refresh_token grant (none exactly where the
source call errors), and refreshRenewThreshold is
oauth_expiry_refresh_token_renew. -/
def handleTokenRequest (store : String → Option OAuthCode)
    (form : String → Option String)
    (validateRefresh : String → Option (Nat × String × Nat))
    (refreshRenewThreshold : Nat) : TokenReqOut :=
  let grantType := (form ("grant_type")).getD ("")
  if eqIgnoreAsciiCase grantType ("authorization_code") then
    match form ("code"), form ("client_id"), form ("redirect_uri") with
    | some code, some clientId, some redirectUri =>
      match store (("oauth:") ++ code) with
      | some oauth =>
        if clientId ≠ oauth.clientId ∨ redirectUri ≠ oauth.params then
          ⟨.error .invalidClient, store⟩
        else if oauth.status = .authorized then
          ⟨.granted oauth.accountId oauth.clientId true, deleteKey store (("oauth:") ++ code)⟩
        else ⟨.error .invalidGrant, store⟩
      | none => ⟨.error .accessDenied, store⟩
    | _, _, _ => ⟨.error .invalidClient, store⟩
  else if eqIgnoreAsciiCase grantType ("urn:ietf:params:oauth:grant-type:device_code") then
    match form ("device_code"), form ("client_id") with
    | some deviceCode, some clientId =>
      match store (("oauth:") ++ deviceCode) with
      | some oauth =>
        if oauth.clientId ≠ clientId then ⟨.error .invalidClient, store⟩
        else
          match oauth.status with
          | .authorized =>
            ⟨.granted oauth.accountId oauth.clientId true,
              deleteKey store (("oauth:") ++ deviceCode)⟩
          | .pending => ⟨.error .authorizationPending, store⟩
          | .tokenIssued => ⟨.error .expiredToken, store⟩
      | none => ⟨.error .expiredToken, store⟩
    | _, _ => ⟨.error .expiredToken, store⟩
  else if eqIgnoreAsciiCase grantType ("refresh_token") then
    match form ("refresh_token") with
    | some rt =>
      match validateRefresh rt with
      | some (accountId, clientId, timeLeft) =>
        ⟨.granted accountId clientId (timeLeft ≤ refreshRenewThreshold), store⟩
      | none => ⟨.error .invalidGrant, store⟩
    | none => ⟨.error .invalidRequest, store⟩
  else ⟨.error .invalidGrant, store⟩

/-- Whether a response is an error (drives the HTTP status). -/
def TokenResponse.isError : TokenResponse → Bool
  | .error _ => true
  | .granted _ _ _ => false

/-- The HTTP status the endpoint answers with: 400 for errors, 200 else. -/
def httpStatusOf (r : TokenResponse) : Nat :=
  if r.isError then 400 else 200

/-- C3 (amended): the token-endpoint response mapping, with the proviso that
the grant types not listed in the table are those other than
authorization_code, device_code and refresh_token (a refresh_token grant is
handled by its own branch and does not uniformly yield invalid_grant). -/
theorem c3_token_endpoint_mapping (store : String → Option OAuthCode)
    (form : String → Option String)
    (validateRefresh : String → Option (Nat × String × Nat)) (th : Nat) :
    (∀ g code clientId redirectUri,
      form ("grant_type") = some g
      → eqIgnoreAsciiCase g ("authorization_code") = true
      → form ("code") = some code
      → form ("client_id") = some clientId
      → form ("redirect_uri") = some redirectUri
      → store (("oauth:") ++ code) = none
      → (handleTokenRequest store form validateRefresh th).resp
        = .error .accessDenied)
    ∧ (∀ g code clientId redirectUri oauth,
      form ("grant_type") = some g
      → eqIgnoreAsciiCase g ("authorization_code") = true
      → form ("code") = some code
      → form ("client_id") = some clientId
      → form ("redirect_uri") = some redirectUri
      → store (("oauth:") ++ code) = some oauth
      → (clientId ≠ oauth.clientId ∨ redirectUri ≠ oauth.params)
      → (handleTokenRequest store form validateRefresh th).resp
        = .error .invalidClient)
    ∧ (∀ g code clientId redirectUri oauth,
      form ("grant_type") = some g
      → eqIgnoreAsciiCase g ("authorization_code") = true
      → form ("code") = some code
      → form ("client_id") = some clientId
      → form ("redirect_uri") = some redirectUri
      → store (("oauth:") ++ code) = some oauth
      → clientId = oauth.clientId → redirectUri = oauth.params
      → (oauth.status = .pending ∨ oauth.status = .tokenIssued)
      → (handleTokenRequest store form validateRefresh th).resp
        = .error .invalidGrant)
    ∧ (∀ g code clientId redirectUri oauth,
      form ("grant_type") = some g
      → eqIgnoreAsciiCase g ("authorization_code") = true
      → form ("code") = some code
      → form ("client_id") = some clientId
      → form ("redirect_uri") = some redirectUri
      → store (("oauth:") ++ code) = some oauth
      → clientId = oauth.clientId → redirectUri = oauth.params
      → oauth.status = .authorized
      → (handleTokenRequest store form validateRefresh th).resp
          = .granted oauth.accountId oauth.clientId true
        ∧ (handleTokenRequest store form validateRefresh th).store
          (("oauth:") ++ code) = none)
    ∧ (∀ g deviceCode clientId,
      form ("grant_type") = some g
      → eqIgnoreAsciiCase g ("urn:ietf:params:oauth:grant-type:device_code") = true
      → form ("device_code") = some deviceCode
      → form ("client_id") = some clientId
      → store (("oauth:") ++ deviceCode) = none
      → (handleTokenRequest store form validateRefresh th).resp
        = .error .expiredToken)
    ∧ (∀ g deviceCode clientId oauth,
      form ("grant_type") = some g
      → eqIgnoreAsciiCase g ("urn:ietf:params:oauth:grant-type:device_code") = true
      → form ("device_code") = some deviceCode
      → form ("client_id") = some clientId
      → store (("oauth:") ++ deviceCode) = some oauth
      → oauth.clientId ≠ clientId
      → (handleTokenRequest store form validateRefresh th).resp
        = .error .invalidClient)
    ∧ (∀ g deviceCode clientId oauth,
      form ("grant_type") = some g
      → eqIgnoreAsciiCase g ("urn:ietf:params:oauth:grant-type:device_code") = true
      → form ("device_code") = some deviceCode
      → form ("client_id") = some clientId
      → store (("oauth:") ++ deviceCode) = some oauth
      → oauth.clientId = clientId
      → oauth.status = .pending
      → (handleTokenRequest store form validateRefresh th).resp
        = .error .authorizationPending)
    ∧ (∀ g deviceCode clientId oauth,
      form ("grant_type") = some g
      → eqIgnoreAsciiCase g ("urn:ietf:params:oauth:grant-type:device_code") = true
      → form ("device_code") = some deviceCode
      → form ("client_id") = some clientId
      → store (("oauth:") ++ deviceCode) = some oauth
      → oauth.clientId = clientId
      → oauth.status = .tokenIssued
      → (handleTokenRequest store form validateRefresh th).resp
        = .error .expiredToken)
    ∧ (∀ g deviceCode clientId oauth,
      form ("grant_type") = some g
      → eqIgnoreAsciiCase g ("urn:ietf:params:oauth:grant-type:device_code") = true
      → form ("device_code") = some deviceCode
      → form ("client_id") = some clientId
      → store (("oauth:") ++ deviceCode) = some oauth
      → oauth.clientId = clientId
      → oauth.status = .authorized
      → (handleTokenRequest store form validateRefresh th).resp
          = .granted oauth.accountId oauth.clientId true
        ∧ (handleTokenRequest store form validateRefresh th).store
          (("oauth:") ++ deviceCode) = none)
    ∧ (∀ g,
      form ("grant_type") = some g
      → eqIgnoreAsciiCase g ("authorization_code") = false
      → eqIgnoreAsciiCase g ("urn:ietf:params:oauth:grant-type:device_code") = false
      → eqIgnoreAsciiCase g ("refresh_token") = false
      → (handleTokenRequest store form validateRefresh th).resp
        = .error .invalidGrant) := by
  refine ⟨?_, ?_, ?_, ?_, ?_, ?_, ?_, ?_, ?_, ?_⟩
  · intro g code clientId redirectUri hg hcase hc hci hr hs
    simp [handleTokenRequest, hg, hcase, hc, hci, hr, hs]
  · intro g code clientId redirectUri oauth hg hcase hc hci hr hs hne
    simp only [handleTokenRequest, hg, Option.getD_some, hcase, if_true, hc, hci, hr, hs]
    rw [if_pos hne]
  · intro g code clientId redirectUri oauth hg hcase hc hci hr hs hcid hruri hstat
    simp only [handleTokenRequest, hg, Option.getD_some, hcase, if_true, hc, hci, hr, hs]
    rw [if_neg (by simp [hcid, hruri])]
    rcases hstat with hstat | hstat <;> simp [hstat]
  · intro g code clientId redirectUri oauth hg hcase hc hci hr hs hcid hruri hstat
    constructor
    · simp only [handleTokenRequest, hg, Option.getD_some, hcase, if_true, hc, hci, hr, hs]
      rw [if_neg (by simp [hcid, hruri])]
      simp [hstat]
    · simp only [handleTokenRequest, hg, Option.getD_some, hcase, if_true, hc, hci, hr, hs]
      rw [if_neg (by simp [hcid, hruri])]
      simp [hstat, deleteKey]
  · intro g deviceCode clientId hg hcase hd hci hs
    have hga : eqIgnoreAsciiCase g ("authorization_code") = false := by
      unfold eqIgnoreAsciiCase at hcase ⊢
      rw [eq_of_beq hcase]
      decide
    simp [handleTokenRequest, hg, hga, hcase, hd, hci, hs]
  · intro g deviceCode clientId oauth hg hcase hd hci hs hne
    have hga : eqIgnoreAsciiCase g ("authorization_code") = false := by
      unfold eqIgnoreAsciiCase at hcase ⊢
      rw [eq_of_beq hcase]
      decide
    simp only [handleTokenRequest, hg, Option.getD_some, hga, Bool.false_eq_true,
      if_false, hcase, if_true, hd, hci, hs]
    rw [if_pos hne]
  · intro g deviceCode clientId oauth hg hcase hd hci hs hcid hstat
    have hga : eqIgnoreAsciiCase g ("authorization_code") = false := by
      unfold eqIgnoreAsciiCase at hcase ⊢
      rw [eq_of_beq hcase]
      decide
    simp only [handleTokenRequest, hg, Option.getD_some, hga, Bool.false_eq_true,
      if_false, hcase, if_true, hd, hci, hs]
    rw [if_neg (by simp [hcid])]
    simp [hstat]
  · intro g deviceCode clientId oauth hg hcase hd hci hs hcid hstat
    have hga : eqIgnoreAsciiCase g ("authorization_code") = false := by
      unfold eqIgnoreAsciiCase at hcase ⊢
      rw [eq_of_beq hcase]
      decide
    simp only [handleTokenRequest, hg, Option.getD_some, hga, Bool.false_eq_true,
      if_false, hcase, if_true, hd, hci, hs]
    rw [if_neg (by simp [hcid])]
    simp [hstat]
  · intro g deviceCode clientId oauth hg hcase hd hci hs hcid hstat
    have hga : eqIgnoreAsciiCase g ("authorization_code") = false := by
      unfold eqIgnoreAsciiCase at hcase ⊢
      rw [eq_of_beq hcase]
      decide
    constructor
    · simp only [handleTokenRequest, hg, Option.getD_some, hga, Bool.false_eq_true,
        if_false, hcase, if_true, hd, hci, hs]
      rw [if_neg (by simp [hcid])]
      simp [hstat]
    · simp only [handleTokenRequest, hg, Option.getD_some, hga, Bool.false_eq_true,
        if_false, hcase, if_true, hd, hci, hs]
      rw [if_neg (by simp [hcid])]
      simp [hstat, deleteKey]
  · intro g hg hga hgd hgr
    simp [handleTokenRequest, hg, hga, hgd, hgr]

/-- C3 counterexample: grant_type refresh_token (a grant type other than the
two tabulated ones) with the refresh_token parameter absent yields
invalid_request, not the invalid_grant the claim asserts for any other
grant type. -/
theorem c3_counterexample :
    (handleTokenRequest (fun _ => none)
      (fun k => if k = ("grant_type") then some ("refresh_token") else none)
      (fun _ => none) 0).resp = .error .invalidRequest
    ∧ TokenResponse.error .invalidRequest ≠ TokenResponse.error .invalidGrant := by
  constructor
  · decide
  · decide

/-- C3 witness: a concrete authorization_code exchange of an Authorized record
is granted with a refresh token and deletes the stored code. -/
theorem c3_token_endpoint_mapping_witness :
    (handleTokenRequest
      (fun k => if k = ("oauth:xyz") then
        some (OAuthCode.mk ("cli") ("uri") 9 OAuthStatus.authorized) else none)
      (fun k =>
        if k = ("grant_type") then some ("authorization_code")
        else if k = ("code") then some ("xyz")
        else if k = ("client_id") then some ("cli")
        else if k = ("redirect_uri") then some ("uri") else none)
      (fun _ => none) 0).resp = .granted 9 ("cli") true
    ∧ (handleTokenRequest
      (fun k => if k = ("oauth:xyz") then
        some (OAuthCode.mk ("cli") ("uri") 9 OAuthStatus.authorized) else none)
      (fun k =>
        if k = ("grant_type") then some ("authorization_code")
        else if k = ("code") then some ("xyz")
        else if k = ("client_id") then some ("cli")
        else if k = ("redirect_uri") then some ("uri") else none)
      (fun _ => none) 0).store (("oauth:") ++ ("xyz")) = none :=
  (c3_token_endpoint_mapping
    (fun k => if k = ("oauth:xyz") then
      some (OAuthCode.mk ("cli") ("uri") 9 OAuthStatus.authorized) else none)
    (fun k =>
      if k = ("grant_type") then some ("authorization_code")
      else if k = ("code") then some ("xyz")
      else if k = ("client_id") then some ("cli")
      else if k = ("redirect_uri") then some ("uri") else none)
    (fun _ => none) 0).2.2.2.1 ("authorization_code") ("xyz") ("cli") ("uri")
    (OAuthCode.mk ("cli") ("uri") 9 OAuthStatus.authorized)
    (by decide) (by decide) (by decide) (by decide) (by decide) (by decide)
    (by decide) (by decide) (by decide)

/-- C9: on the device_code grant, a missing device_code or client_id form
parameter leaves the pre-assigned expiredToken error in place, answered with
HTTP status 400. -/
theorem c9_device_missing_params (store : String → Option OAuthCode)
    (form : String → Option String)
    (validateRefresh : String → Option (Nat × String × Nat)) (th : Nat) (g : String)
    (hg : form ("grant_type") = some g)
    (hdev : eqIgnoreAsciiCase g ("urn:ietf:params:oauth:grant-type:device_code") = true)
    (hmiss : form ("device_code") = none ∨ form ("client_id") = none) :
    (handleTokenRequest store form validateRefresh th).resp = .error .expiredToken
    ∧ httpStatusOf (handleTokenRequest store form validateRefresh th).resp = 400 := by
  have hga : eqIgnoreAsciiCase g ("authorization_code") = false := by
    unfold eqIgnoreAsciiCase at hdev ⊢
    rw [eq_of_beq hdev]
    decide
  have hresp : (handleTokenRequest store form validateRefresh th).resp
      = .error .expiredToken := by
    rcases hmiss with hmiss | hmiss
    · simp [handleTokenRequest, hg, hga, hdev, hmiss]
    · rcases hdc : form ("device_code") with _ | dc
      · simp [handleTokenRequest, hg, hga, hdev, hdc]
      · simp [handleTokenRequest, hg, hga, hdev, hdc, hmiss]
  exact ⟨hresp, by rw [hresp]; decide⟩

/-- C9 witness: a concrete device_code request lacking both parameters. -/
theorem c9_device_missing_params_witness :
    (handleTokenRequest (fun _ => none)
      (fun k => if k = ("grant_type") then
        some ("urn:ietf:params:oauth:grant-type:device_code") else none)
      (fun _ => none) 0).resp = .error .expiredToken
    ∧ httpStatusOf (handleTokenRequest (fun _ => none)
      (fun k => if k = ("grant_type") then
        some ("urn:ietf:params:oauth:grant-type:device_code") else none)
      (fun _ => none) 0).resp = 400 :=
  c9_device_missing_params (fun _ => none)
    (fun k => if k = ("grant_type") then
      some ("urn:ietf:params:oauth:grant-type:device_code") else none)
    (fun _ => none) 0 ("urn:ietf:params:oauth:grant-type:device_code")
    (by decide) (by decide) (Or.inl (by decide))

/-! Embedding of Core::authenticate (common/src/lib.rs lines 256-354).
Usernames and secrets are lists of characters so that the suffix handling of
the master-user branch is explicit. -/

/-- The credential variants (mail-send Credentials, modelled from the spec's
data model; only the variant shape and the login projection are used). -/
inductive Credentials
  | plain (username secret : List Char)
  | xoauth2 (username secret : List Char)
  | oauthBearer (token : List Char)
  deriving DecidableEq

/-- Embedding of the CredentialsUsername login trait. -/
def Credentials.login : Credentials → List Char
  | .plain u _ => u
  | .xoauth2 u _ => u
  | .oauthBearer t => t

/-- Principals as far as authenticate observes them: a directory principal by
id, or the synthetic fallback-admin principal built from the fallback hash. -/
inductive PrincipalM
  | regular (id : Nat)
  | fallbackAdmin (passHash : List Char)
  deriving DecidableEq

/-- Directory error kinds distinguished by authenticate. -/
inductive AuthErrKind
  | missingTotp
  | other (code : Nat)
  deriving DecidableEq

/-- Result of the directory credentials query. -/
inductive DirResult
  | found (p : PrincipalM)
  | notFound
  | failed (e : AuthErrKind)
  deriving DecidableEq

/-- A fallible call (models an awaited trc Result at a question-mark site). -/
inductive ERes (ε α : Type)
  | ok (a : α)
  | err (e : ε)
  deriving DecidableEq

/-- Errors authenticate can return. -/
inductive AuthError
  | query (e : AuthErrKind)
  | ban (ip : Nat) (login : List Char)
  | failed (ip : Nat) (login : List Char)
  deriving DecidableEq

/-- Overall outcome of authenticate. -/
inductive AuthOutcome
  | ok (p : PrincipalM)
  | err (e : AuthError)
  deriving DecidableEq

/-- strip_suffix on character lists: removes the suffix when present,
otherwise (unwrap_or) returns the input unchanged. -/
def stripSuffixL (l suf : List Char) : List Char :=
  if suf.isSuffixOf l then l.take (l.length - suf.length) else l

/-- The fallback-admin / master-user match of authenticate (the Rust match
with its two guarded arms; a failed guard falls through to the next arm, a
matched arm that does not return falls out of the match).  Returns the
principal if an arm returned one, none for fall-through, and propagates the
errors of verify_secret_hash and of the directory name query. -/
def fallbackMasterCheck (verifySecret : List Char → List Char → ERes AuthErrKind Bool)
    (dirName : List Char → ERes AuthErrKind (Option PrincipalM))
    (fallbackAdmin masterUser : Option (List Char × List Char))
    (credentials : Credentials) : ERes AuthErrKind (Option PrincipalM) :=
  match credentials with
  | .plain u s =>
    match fallbackAdmin, masterUser with
    | some (fa, fpass), _ =>
      if u = fa then
        match verifySecret fpass s with
        | .err e => .err e
        | .ok true => .ok (some (.fallbackAdmin fpass))
        | .ok false => .ok none
      else
        match masterUser with
        | some (mu, mpass) =>
          if mu.isSuffixOf u then
            match verifySecret mpass s with
            | .err e => .err e
            | .ok true => dirName (stripSuffixL (stripSuffixL u mu) ['%'])
            | .ok false => .ok none
          else .ok none
        | none => .ok none
    | none, some (mu, mpass) =>
      if mu.isSuffixOf u then
        match verifySecret mpass s with
        | .err e => .err e
        | .ok true => dirName (stripSuffixL (stripSuffixL u mu) ['%'])
        | .ok false => .ok none
      else .ok none
    | none, none => .ok none
  | _ => .ok none

/-- Embedding of Core::authenticate.  dirCred is the directory query by
credentials; dirName the query by name used by the master-user branch;
hasFail2ban and isBanned model has_auth_fail2ban and is_auth_fail2banned
(whose own store errors are not modelled: no claim concerns them). -/
def authenticate (dirCred : Credentials → DirResult)
    (dirName : List Char → ERes AuthErrKind (Option PrincipalM))
    (verifySecret : List Char → List Char → ERes AuthErrKind Bool)
    (fallbackAdmin masterUser : Option (List Char × List Char))
    (hasFail2ban : Bool) (isBanned : Nat → List Char → Bool)
    (credentials : Credentials) (remoteIp : Nat) : AuthOutcome :=
  let afterDir : Option AuthErrKind → AuthOutcome := fun deferred =>
    match fallbackMasterCheck verifySecret dirName fallbackAdmin masterUser credentials with
    | .err e => .err (.query e)
    | .ok (some p) => .ok p
    | .ok none =>
      match deferred with
      | some e => .err (.query e)
      | none =>
        if hasFail2ban then
          if isBanned remoteIp credentials.login then
            .err (.ban remoteIp credentials.login)
          else .err (.failed remoteIp credentials.login)
        else .err (.failed remoteIp credentials.login)
  match dirCred credentials with
  | .found p => .ok p
  | .notFound => afterDir none
  | .failed e =>
    if e = AuthErrKind.missingTotp then .err (.query e) else afterDir (some e)

/-- C4: a MissingTotp error from the directory credentials query is returned
immediately, whatever fallback admin, master user, verifier or fail-to-ban
configuration is in place. -/
theorem c4_missing_totp_short_circuit (dirCred : Credentials → DirResult)
    (dirName : List Char → ERes AuthErrKind (Option PrincipalM))
    (verifySecret : List Char → List Char → ERes AuthErrKind Bool)
    (fallbackAdmin masterUser : Option (List Char × List Char))
    (hasFail2ban : Bool) (isBanned : Nat → List Char → Bool)
    (credentials : Credentials) (remoteIp : Nat)
    (hm : dirCred credentials = .failed .missingTotp) :
    authenticate dirCred dirName verifySecret fallbackAdmin masterUser
      hasFail2ban isBanned credentials remoteIp
    = .err (.query .missingTotp) := by
  simp [authenticate, hm]

/-- C4 witness: the directory reports MissingTotp while a fallback admin is
configured, matches the username, and would verify; the error still wins. -/
theorem c4_missing_totp_short_circuit_witness :
    authenticate (fun _ => .failed .missingTotp)
      (fun _ => .ok none) (fun _ _ => .ok true)
      (some (("root").data, ("fh").data)) none
      true (fun _ _ => false)
      (.plain ("root").data ("pw").data) 3
    = .err (.query .missingTotp) :=
  c4_missing_totp_short_circuit (fun _ => .failed .missingTotp)
    (fun _ => .ok none) (fun _ _ => .ok true)
    (some (("root").data, ("fh").data)) none
    true (fun _ _ => false)
    (.plain ("root").data ("pw").data) 3 rfl

/-- C5: with a configured master user, Plain credentials whose username ends
with the master suffix and whose secret verifies against the master hash, and
the earlier pipeline steps not matching (directory credentials query finds
nothing, fallback-admin name differs), the master suffix and one trailing
percent sign are stripped, the directory is queried by the resulting name,
and the principal it finds is returned. -/
theorem c5_master_user_login (dirCred : Credentials → DirResult)
    (dirName : List Char → ERes AuthErrKind (Option PrincipalM))
    (verifySecret : List Char → List Char → ERes AuthErrKind Bool)
    (fallbackAdmin : Option (List Char × List Char))
    (hasFail2ban : Bool) (isBanned : Nat → List Char → Bool)
    (u s mu mpass : List Char) (p : PrincipalM) (remoteIp : Nat)
    (hdir : dirCred (Credentials.plain u s) = .notFound)
    (hfb : ∀ fa fp, fallbackAdmin = some (fa, fp) → u ≠ fa)
    (hends : mu.isSuffixOf u = true)
    (hver : verifySecret mpass s = .ok true)
    (hname : dirName (stripSuffixL (stripSuffixL u mu) ['%']) = .ok (some p)) :
    authenticate dirCred dirName verifySecret fallbackAdmin (some (mu, mpass))
      hasFail2ban isBanned (Credentials.plain u s) remoteIp
    = .ok p := by
  cases hfa : fallbackAdmin with
  | none =>
    simp [authenticate, fallbackMasterCheck, hdir, hfa, hends, hver, hname]
  | some pair =>
    obtain ⟨fa, fp⟩ := pair
    have hne : u ≠ fa := hfb fa fp hfa
    simp [authenticate, fallbackMasterCheck, hdir, hfa, hends, hver, hname, hne]

/-- C5 witness: scenario S2: master suffix at-admin, username alice percent
at-admin; the directory is queried for alice and principal 7 is returned. -/
theorem c5_master_user_login_witness :
    authenticate (fun _ => .notFound)
      (fun n => if n = ("alice").data then .ok (some (.regular 7)) else .ok none)
      (fun _ _ => .ok true) none
      (some (("@admin").data, ("pw2").data))
      false (fun _ _ => false)
      (.plain ("alice%@admin").data ("pw").data) 3
    = .ok (.regular 7) :=
  c5_master_user_login (fun _ => .notFound)
    (fun n => if n = ("alice").data then .ok (some (.regular 7)) else .ok none)
    (fun _ _ => .ok true) none
    false (fun _ _ => false)
    ("alice%@admin").data ("pw").data ("@admin").data ("pw2").data
    (.regular 7) 3 rfl
    (fun fa fp h => Option.noConfusion h)
    (by decide) rfl (by decide)

/-- C10: when the fallback-admin name equals the Plain username, that match
arm is selected exclusively: if the secret fails against the fallback hash,
the result is the deferred-error / fail-to-ban / AuthFailed outcome for every
master-user configuration, even one whose suffix matches the username and
whose hash would verify. -/
theorem c10_fallback_arm_exclusive (dirCred : Credentials → DirResult)
    (dirName : List Char → ERes AuthErrKind (Option PrincipalM))
    (verifySecret : List Char → List Char → ERes AuthErrKind Bool)
    (masterUser : Option (List Char × List Char))
    (hasFail2ban : Bool) (isBanned : Nat → List Char → Bool)
    (u s fpass : List Char) (remoteIp : Nat)
    (hver : verifySecret fpass s = .ok false) :
    (dirCred (Credentials.plain u s) = .notFound
      → authenticate dirCred dirName verifySecret (some (u, fpass)) masterUser
          hasFail2ban isBanned (Credentials.plain u s) remoteIp
        = (if hasFail2ban then
            if isBanned remoteIp u then .err (.ban remoteIp u)
            else .err (.failed remoteIp u)
          else .err (.failed remoteIp u)))
    ∧ (∀ e, e ≠ AuthErrKind.missingTotp
      → dirCred (Credentials.plain u s) = .failed e
      → authenticate dirCred dirName verifySecret (some (u, fpass)) masterUser
          hasFail2ban isBanned (Credentials.plain u s) remoteIp
        = .err (.query e)) := by
  constructor
  · intro hdir
    simp [authenticate, fallbackMasterCheck, hdir, hver, Credentials.login]
  · intro e he hdir
    simp [authenticate, fallbackMasterCheck, hdir, hver, he, Credentials.login]

/-- C10 witness: the username equals the fallback-admin name and also ends
with the configured master suffix, the master hash verifies, the directory
would find the stripped name, yet the failed fallback verification leads to
AuthFailed. -/
theorem c10_fallback_arm_exclusive_witness :
    authenticate (fun _ => .notFound)
      (fun n => if n = ("root").data then .ok (some (.regular 9)) else .ok none)
      (fun h _ => if h = ("mp").data then .ok true else .ok false)
      (some (("root@adm").data, ("fp").data))
      (some (("@adm").data, ("mp").data))
      false (fun _ _ => false)
      (.plain ("root@adm").data ("pw").data) 3
    = .err (.failed 3 ("root@adm").data) :=
  (c10_fallback_arm_exclusive (fun _ => .notFound)
    (fun n => if n = ("root").data then .ok (some (.regular 9)) else .ok none)
    (fun h _ => if h = ("mp").data then .ok true else .ok false)
    (some (("@adm").data, ("mp").data))
    false (fun _ _ => false)
    ("root@adm").data ("pw").data ("fp").data 3 (by decide)).1 rfl

/-! Embedding of the APPEND ingest transaction, append_messages
(imap/src/op/append.rs lines 99-218), from the point where the ACL and quota
checks have passed.  Each supplied message is represented by the outcome of
its email_ingest call. -/

/-- Outcome of one email_ingest call. -/
inductive IngestOutcome
  | success (docId changeId : Nat)
  | tempFail
  | overQuota
  | permFail (reason : String)
  deriving DecidableEq

/-- IMAP status response types. -/
inductive ResponseType
  | ok
  | no
  | bad
  deriving DecidableEq

/-- The response codes append_messages can attach. -/
inductive ResponseCode
  | appendUid (uidValidity : Nat) (uids : List Nat)
  | overQuota
  | contactAdmin
  deriving DecidableEq

/-- Modelled from the spec: the imap-proto StatusResponse (declared outside
the analysed sources): a response type, a message, at most one bracketed
response code, and an optional tag. -/
structure StatusResponse where
  rtype : ResponseType
  message : String
  code : Option ResponseCode
  tag : Option String
  deriving DecidableEq

/-- Modelled from the spec: StatusResponse no(message). -/
def statusNo (msg : String) : StatusResponse :=
  ⟨.no, msg, none, none⟩

/-- Modelled from the spec: StatusResponse completed(Append). -/
def statusCompleted : StatusResponse :=
  ⟨.ok, ("APPEND completed"), none, none⟩

/-- Modelled from the spec: the with_code builder sets the single
response-code slot of the status response (overwriting any earlier code). -/
def withCode (r : StatusResponse) (c : ResponseCode) : StatusResponse :=
  { r with code := some c }

/-- Modelled from the spec: the with_tag builder. -/
def withTag (r : StatusResponse) (t : String) : StatusResponse :=
  { r with tag := some t }

/-- Modelled from the spec: StatusResponse database_failure(). -/
def databaseFailure : StatusResponse :=
  ⟨.no, ("Database failure"), some .contactAdmin, none⟩

/-- State of the ingest loop when it finishes: collected document ids, the
change id of the last success, and the pending response. -/
structure AppendLoopOut where
  createdIds : List Nat
  lastChangeId : Option Nat
  resp : StatusResponse
  deriving DecidableEq

/-- The per-message ingest loop of append_messages: successes push their
document id and record their change id; the first error replaces the
response according to its kind and breaks. -/
def appendLoopAux : List IngestOutcome → List Nat → Option Nat → StatusResponse → AppendLoopOut
  | [], created, lastC, resp => ⟨created, lastC, resp⟩
  | o :: rest, created, lastC, resp =>
    match o with
    | .success d c => appendLoopAux rest (created ++ [d]) (some c) resp
    | .tempFail => ⟨created, lastC, databaseFailure⟩
    | .overQuota => ⟨created, lastC, withCode (statusNo ("Disk quota exceeded.")) .overQuota⟩
    | .permFail reason => ⟨created, lastC, statusNo reason⟩

/-- The ingest loop started from the completed response, no successes. -/
def appendLoop (outcomes : List IngestOutcome) : AppendLoopOut :=
  appendLoopAux outcomes [] none statusCompleted

/-- A cross-protocol state-change notification with per-type change ids. -/
structure StateChange where
  accountId : Nat
  email : Option Nat
  mailbox : Option Nat
  thread : Option Nat
  deriving DecidableEq

/-- The broadcast step of append_messages: one StateChange carrying Email,
Mailbox and Thread at the last successful change id, nothing otherwise. -/
def appendBroadcasts (accountId : Nat) (out : AppendLoopOut) : List StateChange :=
  match out.lastChangeId with
  | some c => [⟨accountId, some c, some c, some c⟩]
  | none => []

/-- The UID-assembly step of append_messages: when any message was created,
the created ids are translated through the mailbox id-to-uid map (the same
filter-map shape whether the target is the selected mailbox or fetched
fresh; ids without a mapping are dropped) and attached with with_code; the
tag is attached last. -/
def appendFinalize (out : AppendLoopOut) (idToImap : Nat → Option Nat)
    (uidValidity : Nat) (tag : String) : StatusResponse :=
  withTag
    (if out.createdIds.isEmpty then out.resp
     else withCode out.resp (.appendUid uidValidity (out.createdIds.filterMap idToImap)))
    tag

theorem appendLoopAux_successes :
    ∀ (pre : List (Nat × Nat)) (l : List IngestOutcome) (created : List Nat)
      (lastC : Option Nat) (resp : StatusResponse),
    appendLoopAux (pre.map (fun pr => IngestOutcome.success pr.1 pr.2) ++ l) created lastC resp
    = appendLoopAux l (created ++ pre.map Prod.fst)
        (((pre.map Prod.snd).getLast?).elim lastC some) resp := by
  intro pre
  induction pre with
  | nil =>
    intro l created lastC resp
    simp [Option.elim]
  | cons p pre ih =>
    intro l created lastC resp
    rw [List.map_cons, List.cons_append]
    show appendLoopAux (pre.map (fun pr => IngestOutcome.success pr.1 pr.2) ++ l)
      (created ++ [p.1]) (some p.2) resp = _
    rw [ih]
    cases pre with
    | nil => simp [Option.elim]
    | cons q pre =>
      have hx : ∃ c, (q.2 :: List.map Prod.snd pre).getLast? = some c := by
        cases h : (q.2 :: List.map Prod.snd pre).getLast? with
        | some c => exact ⟨c, rfl⟩
        | none => exact absurd (List.getLast?_eq_none_iff.1 h) (by simp)
      obtain ⟨c, hc⟩ := hx
      simp only [List.map_cons, List.getLast?_cons_cons, hc, Option.elim,
        List.append_assoc, List.singleton_append]

theorem optionElimNoneSome (o : Option Nat) : o.elim none some = o := by
  cases o <;> rfl

/-- C6 (amended): when ingest of the k-th message fails with OverQuota, the
first k-1 messages remain ingested (their document ids are exactly the
collected ids), the loop stops, exactly one StateChange carrying Email,
Mailbox and Thread at the last successful change id is broadcast when k > 1
(none when k = 1), and the returned response is the tag-annotated NO with
text Disk quota exceeded; its response code is OVERQUOTA when no message was
ingested, but when k > 1 the UID-assembly step overwrites it with APPENDUID
for the k-1 ingested messages. -/
theorem c6_append_over_quota (pre : List (Nat × Nat)) (rest : List IngestOutcome)
    (accountId uidValidity : Nat) (idToImap : Nat → Option Nat) (tag : String) :
    (appendLoop (pre.map (fun pr => IngestOutcome.success pr.1 pr.2)
        ++ IngestOutcome.overQuota :: rest)).createdIds = pre.map Prod.fst
    ∧ (appendLoop (pre.map (fun pr => IngestOutcome.success pr.1 pr.2)
        ++ IngestOutcome.overQuota :: rest)).lastChangeId = (pre.map Prod.snd).getLast?
    ∧ (∀ c, (pre.map Prod.snd).getLast? = some c →
        appendBroadcasts accountId (appendLoop (pre.map (fun pr => IngestOutcome.success pr.1 pr.2)
          ++ IngestOutcome.overQuota :: rest))
        = [⟨accountId, some c, some c, some c⟩])
    ∧ (pre = [] →
        appendBroadcasts accountId (appendLoop (pre.map (fun pr => IngestOutcome.success pr.1 pr.2)
          ++ IngestOutcome.overQuota :: rest)) = [])
    ∧ appendFinalize (appendLoop (pre.map (fun pr => IngestOutcome.success pr.1 pr.2)
        ++ IngestOutcome.overQuota :: rest)) idToImap uidValidity tag
      = ⟨.no, ("Disk quota exceeded."),
          some (if pre.isEmpty then ResponseCode.overQuota
            else .appendUid uidValidity ((pre.map Prod.fst).filterMap idToImap)),
          some tag⟩ := by
  have key : appendLoop (pre.map (fun pr => IngestOutcome.success pr.1 pr.2)
      ++ IngestOutcome.overQuota :: rest)
      = ⟨pre.map Prod.fst, (pre.map Prod.snd).getLast?,
          withCode (statusNo ("Disk quota exceeded.")) .overQuota⟩ := by
    unfold appendLoop
    rw [appendLoopAux_successes]
    show (⟨[] ++ pre.map Prod.fst, ((pre.map Prod.snd).getLast?).elim none some,
      withCode (statusNo ("Disk quota exceeded.")) .overQuota⟩ : AppendLoopOut) = _
    rw [List.nil_append, optionElimNoneSome]
  refine ⟨?_, ?_, ?_, ?_, ?_⟩
  · rw [key]
  · rw [key]
  · intro c hc
    rw [key]
    simp [appendBroadcasts, hc]
  · intro hpre
    subst hpre
    rw [key]
    simp [appendBroadcasts]
  · rw [key]
    cases pre with
    | nil => simp [appendFinalize, withTag, withCode, statusNo]
    | cons q pre =>
      simp [appendFinalize, withTag, withCode, statusNo]

/-- C6 counterexample: over quota on the third of five messages with two
prior successes: the final response carries the APPENDUID response code
rather than the OVERQUOTA code the claim asserts (the broadcast and the
message text are as claimed). -/
theorem c6_counterexample :
    (appendFinalize (appendLoop
        [.success 10 100, .success 11 101, .overQuota, .success 12 102, .success 13 103])
      (fun d => if d = 10 then some 1 else if d = 11 then some 2 else none)
      42 ("A1"))
    = ⟨.no, ("Disk quota exceeded."), some (.appendUid 42 [1, 2]), some ("A1")⟩
    ∧ some (ResponseCode.appendUid 42 [1, 2]) ≠ some ResponseCode.overQuota
    ∧ appendBroadcasts 7 (appendLoop
        [.success 10 100, .success 11 101, .overQuota, .success 12 102, .success 13 103])
      = [⟨7, some 101, some 101, some 101⟩] := by
  refine ⟨?_, ?_, ?_⟩ <;> decide

/-- C6 witness: the amended claim at the same concrete five-message run. -/
theorem c6_append_over_quota_witness :
    appendBroadcasts 7 (appendLoop
      ([(10, 100), (11, 101)].map (fun pr => IngestOutcome.success pr.1 pr.2)
        ++ IngestOutcome.overQuota :: [.success 12 102, .success 13 103]))
    = [⟨7, some 101, some 101, some 101⟩] :=
  (c6_append_over_quota [(10, 100), (11, 101)] [.success 12 102, .success 13 103]
    7 42 (fun d => if d = 10 then some 1 else if d = 11 then some 2 else none)
    ("A1")).2.2.1 101 (by decide)

/-! Embedding of bytes_with_limit (common/src/lib.rs lines 428-450).  The
response is represented by its advertised content length and the list of
chunks its byte stream yields; transport errors of the stream are outside
the model (the source forwards them unchanged). -/

/-- The advertised content-length check: content_length map_or false
(len as usize greater than limit). -/
def advertisedExceeds (contentLength : Option Nat) (limit : Nat) : Bool :=
  match contentLength with
  | some len => decide (limit < len)
  | none => false

/-- The streaming loop: give up as soon as the collected size plus the next
chunk would exceed the limit, otherwise append the chunk and continue. -/
def bytesWithLimitLoop (limit : Nat) : List (List Nat) → List Nat → Option (List Nat)
  | [], acc => some acc
  | chunk :: rest, acc =>
    if limit < acc.length + chunk.length then none
    else bytesWithLimitLoop limit rest (acc ++ chunk)

/-- Embedding of bytes_with_limit. -/
def bytesWithLimit (contentLength : Option Nat) (chunks : List (List Nat))
    (limit : Nat) : Option (List Nat) :=
  if advertisedExceeds contentLength limit then none
  else bytesWithLimitLoop limit chunks []

/-- The initial buffer capacity: Vec with_capacity (min limit 1024). -/
def initialBufferCapacity (limit : Nat) : Nat := min limit 1024

theorem bytesWithLimitLoop_spec :
    ∀ (chunks : List (List Nat)) (acc : List Nat) (limit : Nat), acc.length ≤ limit →
    bytesWithLimitLoop limit chunks acc
    = if acc.length + chunks.flatten.length ≤ limit then some (acc ++ chunks.flatten)
      else none := by
  intro chunks
  induction chunks with
  | nil =>
    intro acc limit hacc
    simp [bytesWithLimitLoop, hacc]
  | cons chunk rest ih =>
    intro acc limit hacc
    by_cases h : limit < acc.length + chunk.length
    · have hcond : ¬ (acc.length + ((chunk :: rest).flatten).length ≤ limit) := by
        simp only [List.flatten_cons, List.length_append]
        omega
      have hstep : bytesWithLimitLoop limit (chunk :: rest) acc = none := by
        unfold bytesWithLimitLoop
        rw [if_pos h]
      rw [hstep, if_neg hcond]
    · have hlen : (acc ++ chunk).length ≤ limit := by
        simp only [List.length_append]
        omega
      simp only [bytesWithLimitLoop, if_neg h, ih (acc ++ chunk) limit hlen,
        List.flatten_cons, List.length_append, List.append_assoc, Nat.add_assoc]

/-- C8: the HTTP body limiter returns nothing when the advertised content
length exceeds the limit, whatever the body chunks are (so without reading
them); otherwise it returns the concatenation of the chunks exactly when the
total size stays within the limit, and nothing as soon as the running size
would exceed it; the initial buffer capacity is the minimum of the limit
and 1024. -/
theorem c8_bytes_with_limit (contentLength : Option Nat) (chunks : List (List Nat))
    (limit : Nat) :
    (∀ len, contentLength = some len → limit < len →
      bytesWithLimit contentLength chunks limit = none)
    ∧ (advertisedExceeds contentLength limit = false →
      bytesWithLimit contentLength chunks limit
      = if chunks.flatten.length ≤ limit then some chunks.flatten else none)
    ∧ initialBufferCapacity limit = min limit 1024 := by
  refine ⟨?_, ?_, rfl⟩
  · intro len hlen hlt
    simp [bytesWithLimit, advertisedExceeds, hlen, hlt]
  · intro h
    rw [bytesWithLimit, h]
    simp only [Bool.false_eq_true, if_false]
    rw [bytesWithLimitLoop_spec chunks [] limit (by simp)]
    simp

/-- C8 witness: an advertised content length of twice the limit yields
nothing even though the stream would fit. -/
theorem c8_bytes_with_limit_witness :
    bytesWithLimit (some 8) [[1, 2]] 4 = none :=
  (c8_bytes_with_limit (some 8) [[1, 2]] 4).1 8 rfl (by decide)
